import Mathlib

/-!
Verification development for a YouTube-transcript bulk-download pipeline
(`download_service.py`, `github_storage.py`, `scheduler.py`).

The Python code is shallowly embedded: pure computations become Lean
functions over `String`/`Nat`/`Int`/`List`; network effects (HTTP responses,
raised exceptions) become explicit parameters or `Except`; the stateful
GitHub repository and the scheduler's job mapping become association lists
passed explicitly.  Wall-clock sleeps are recorded as an observable trace.
-/

namespace YT

/-! ## Generic string helpers (kernel-reducible models of Python string ops) -/

/-- Model of Python `str.split(',')`: split a character list at every comma. -/
def splitCommaAux : List Char → List Char → List String
  | [], cur => [String.mk cur.reverse]
  | c :: cs, cur =>
      if c = ',' then String.mk cur.reverse :: splitCommaAux cs []
      else splitCommaAux cs (c :: cur)

/-- Model of Python `s.split(',')`. -/
def splitComma (s : String) : List String :=
  splitCommaAux s.toList []

/-- Python whitespace characters relevant to `str.strip()`. -/
def isSpaceChar (c : Char) : Bool :=
  c = ' ' || c = '\t' || c = '\n' || c = '\r'

/-- Model of Python `str.strip()`. -/
def stripStr (s : String) : String :=
  String.mk (((s.toList.dropWhile isSpaceChar).reverse.dropWhile isSpaceChar).reverse)

/-- Model of Python `str.lower()` (ASCII-faithful). -/
def lowerStr (s : String) : String :=
  String.mk (s.toList.map Char.toLower)

/-- Boolean test that `pat` starts the list `l`. -/
def listStartsWith : List Char → List Char → Bool
  | [], _ => true
  | _ :: _, [] => false
  | a :: as, b :: bs => a = b && listStartsWith as bs

/-- Boolean test that `pat` occurs contiguously inside `l`
(model of Python `pat in s`). -/
def occursIn (pat : List Char) : List Char → Bool
  | [] => listStartsWith pat []
  | c :: t => listStartsWith pat (c :: t) || occursIn pat t

/-- Model of Python `sub in s` on strings. -/
def strContainsSub (s sub : String) : Bool :=
  occursIn sub.toList s.toList

/-! ## Association-list maps (Python `dict` / file tree, lookup semantics) -/

/-- Lookup in an association list keyed by `String`. -/
def assocGet {α : Type} (m : List (String × α)) (k : String) : Option α :=
  (m.find? (fun e => decide (e.1 = k))).map (fun e => e.2)

/-- Insert-or-replace in an association list keyed by `String`
(models `d[k] = v` / create-or-update of a file at a path). -/
def assocSet {α : Type} (m : List (String × α)) (k : String) (v : α) :
    List (String × α) :=
  (m.filter (fun e => decide (e.1 ≠ k))) ++ [(k, v)]

/-! ## `github_storage.py` -/

/-- The characters removed by `GitHubStorage._sanitize_name`
(the regex class in the source). -/
def invalidPathChars : List Char :=
  ['<', '>', ':', '\"', '/', '\\', '|', '?', '*', '@']

/-- Model of `GitHubStorage._sanitize_name`: strip the invalid characters, replace
spaces with underscores, truncate to 100 characters. -/
def sanitize_name (name : String) : String :=
  let removed := name.toList.filter (fun c => !(invalidPathChars.contains c))
  let replaced := removed.map (fun c => if c = ' ' then '_' else c)
  String.mk (replaced.take 100)

/-- The path `save_transcript` writes to:
`channels/[channel]/[video_id]_[title].json` (source comment: "Include
video_id in filename for uniqueness"). -/
def savePath (channel_name video_id title : String) : String :=
  "channels/" ++ sanitize_name channel_name ++ "/" ++ video_id ++ "_" ++
    sanitize_name title ++ ".json"

/-- The path `get_transcript` reads from: `channels/[channel]/[title].json`
(note: no `video_id` component). -/
def getPath (channel_name title : String) : String :=
  "channels/" ++ sanitize_name channel_name ++ "/" ++ sanitize_name title ++ ".json"

/-- Outcome of the GitHub code-search request made by
`check_transcript_exists`: either the request raised, or it returned a
status code together with the number of matching items. -/
inductive SearchOutcome : Type
  | raised : SearchOutcome
  | response (status : Nat) (itemCount : Nat) : SearchOutcome
deriving DecidableEq, Repr

/-- Model of `GitHubStorage.check_transcript_exists`: `True` only when the search
request succeeded with status 200 and returned at least one item; every
exception and every non-200 status yields `False`. -/
def check_transcript_exists : SearchOutcome → Bool
  | .raised => false
  | .response status items => if status = 200 then decide (0 < items) else false

/-- Result dictionary of `save_transcript` (the `url` is the saved path;
the source returns the response's `html_url`, abstracted here). -/
structure SaveResult where
  success : Bool
  duplicate : Bool
  url : Option String
  error : Option String
deriving DecidableEq, Repr

/-- The `PUT /contents/...` request issued by `save_transcript`: the target
path, and the existing blob's SHA when the file already exists (its presence
makes the request an overwriting update). -/
structure PutRequest where
  path : String
  sha : Option String
deriving DecidableEq, Repr

/-- Model of `GitHubStorage.save_transcript` at the network level: `probe` is the
outcome of the internal `check_transcript_exists` re-check, `existing_sha`
the result of `_get_file_sha`, `put_status` the status of the contents PUT.
Returns the result dictionary and the PUT request issued (if any). -/
def save_transcript (probe : SearchOutcome) (existing_sha : Option String)
    (put_status : Nat) (channel_name video_id title : String) :
    SaveResult × Option PutRequest :=
  if check_transcript_exists probe then
    ({ success := false, duplicate := true, url := none,
       error := some "Transcript already exists" }, none)
  else
    let req : PutRequest :=
      { path := savePath channel_name video_id title, sha := existing_sha }
    if put_status = 201 ∨ put_status = 200 then
      ({ success := true, duplicate := false, url := some req.path, error := none },
       some req)
    else
      ({ success := false, duplicate := false, url := none,
         error := some "save failed" }, some req)

/-- A stored transcript record (the JSON content written by
`save_transcript`, fields relevant to retrieval). -/
structure StoredRecord where
  video_id : String
  title : String
  channel : String
  transcript : String
deriving DecidableEq, Repr

/-- The GitHub repository contents as a path-indexed map. -/
abbrev Repo := List (String × StoredRecord)

/-- The code-search existence probe against an available backend: does any
stored file carry this `video_id`?  (The search query in the source matches
the `"video_id": "..."` field of the stored JSON.) -/
def searchVideoId (repo : Repo) (video_id : String) : Bool :=
  repo.any (fun f => f.2.video_id = video_id)

/-- Model of `save_transcript` against an idealized always-available backend (search
and PUT both succeed): duplicate-check by `video_id`, then create-or-update
the file at `savePath`.  State-level projection of `save_transcript`. -/
def save_transcript_repo (repo : Repo)
    (channel_name video_id title transcript_text : String) : Repo × SaveResult :=
  if searchVideoId repo video_id then
    (repo, { success := false, duplicate := true, url := none,
             error := some "Transcript already exists" })
  else
    let p := savePath channel_name video_id title
    (assocSet repo p
       { video_id := video_id, title := title, channel := channel_name,
         transcript := transcript_text },
     { success := true, duplicate := false, url := some p, error := none })

/-- Model of `GitHubStorage.get_transcript`: fetch the file at `getPath`; a 404
(missing file) is `none`. -/
def get_transcript (repo : Repo) (channel_name title : String) :
    Option StoredRecord :=
  assocGet repo (getPath channel_name title)

/-! ## `download_service.py`: transcript fetch tiers -/

/-- The transcript listing of one video, as seen by the four fallback tiers
of `download_transcript`: each field is the outcome of the corresponding
find-and-fetch attempt (`none` = that attempt raised).  Tier 4 carries the
first available transcript together with its language. -/
structure TranscriptListing where
  manual_en : Option String
  generated_en : Option String
  any_en : Option String
  first_any : Option (String × String)
deriving DecidableEq, Repr

/-- The nested try/except tier block of `download_transcript`: returns the
chosen transcript text with its `transcript_type` tag, plus the list of
tiers attempted, in order.  Tier 3 leaves the tag at its initial value
`"unknown"` (the source never assigns it there). -/
def selectTranscript (tl : TranscriptListing) :
    Option (String × String) × List Nat :=
  match tl.manual_en with
  | some t => (some (t, "manual"), [1])
  | none =>
    match tl.generated_en with
    | some t => (some (t, "auto-generated"), [1, 2])
    | none =>
      match tl.any_en with
      | some t => (some (t, "unknown"), [1, 2, 3])
      | none =>
        match tl.first_any with
        | some tl4 => (some (tl4.1, "auto (" ++ tl4.2 ++ ")"), [1, 2, 3, 4])
        | none => (none, [1, 2, 3, 4])

/-! ## `download_service.py`: playlist listing (`get_video_ids_from_playlist`) -/

/-- One item of a playlist-items API page.  `publishedAt` is the parsed
publish timestamp (the source parses the ISO string into a datetime and
compares datetimes; we embed timestamps as integers). -/
structure PlaylistItem where
  videoId : String
  publishedAt : Int
  title : String
  channelTitle : String
  itemChannelId : String
deriving DecidableEq, Repr

/-- The video-entry dictionary appended to `video_data`. -/
structure VideoEntry where
  id : String
  date : Int
  title : String
  channel : String
  channel_id : String
deriving DecidableEq, Repr

/-- The date filter of `get_video_ids_from_playlist`: keep the item when no
`after_date` is given, or when `video_date > after_date` (strict). -/
def passesFilter (after_date : Option Int) (it : PlaylistItem) : Bool :=
  match after_date with
  | none => true
  | some t => decide (t < it.publishedAt)

/-- Build the appended entry (`channel_id` falls back to the item's own
channel id when the caller-supplied one is empty, Python truthiness). -/
def mkEntry (channel_id : String) (it : PlaylistItem) : VideoEntry :=
  { id := it.videoId, date := it.publishedAt, title := it.title,
    channel := it.channelTitle,
    channel_id := if channel_id ≠ "" then channel_id else it.itemChannelId }

/-- The limit test `if limit and len(video_data) >= limit` (Python
truthiness: `limit = 0` never truncates). -/
def limitHit (limit : Option Nat) (n : Nat) : Bool :=
  match limit with
  | none => false
  | some l => decide (l ≠ 0 ∧ l ≤ n)

/-- The inner `for item in data["items"]` loop of one page: append the
entries passing the date filter; the second component is `true` when the
limit was reached and the function returned early. -/
def processItems (channel_id : String) (after_date : Option Int)
    (limit : Option Nat) : List PlaylistItem → List VideoEntry →
    List VideoEntry × Bool
  | [], acc => (acc, false)
  | it :: its, acc =>
      if passesFilter after_date it then
        let acc' := acc ++ [mkEntry channel_id it]
        if limitHit limit acc'.length then (acc', true)
        else processItems channel_id after_date limit its acc'
      else processItems channel_id after_date limit its acc

/-- The outer `while True` pagination loop: `pages` is the sequence of
page responses the API would serve (the last one carrying no continuation
token).  Returns the collected entries and the number of pages actually
requested. -/
def fetchPages (channel_id : String) (after_date : Option Int)
    (limit : Option Nat) : List (List PlaylistItem) → List VideoEntry →
    List VideoEntry × Nat
  | [], acc => (acc, 0)
  | page :: rest, acc =>
      match processItems channel_id after_date limit page acc with
      | (acc', true) => (acc', 1)
      | (acc', false) =>
          let r := fetchPages channel_id after_date limit rest acc'
          (r.1, r.2 + 1)

/-- Model of `DownloadService.get_video_ids_from_playlist` over successful API
responses: the collected `video_data` and the number of page requests
made. -/
def get_video_ids_from_playlist (pages : List (List PlaylistItem))
    (channel_id : String) (after_date : Option Int) (limit : Option Nat) :
    List VideoEntry × Nat :=
  fetchPages channel_id after_date limit pages []

/-- Least number of leading pages whose date-filtered items reach the
requested count `n` (all pages when never reached).  Spec-side
characterization of where pagination stops. -/
def specMinPages (after_date : Option Int) :
    List (List PlaylistItem) → Nat → Nat
  | [], _ => 0
  | page :: rest, n =>
      let c := (page.filter (passesFilter after_date)).length
      if n ≤ c then 1 else 1 + specMinPages after_date rest (n - c)

/-! ## `download_service.py`: the run loop (`run_download`) -/

/-- A candidate video as held in `videos_to_download`. -/
structure Video where
  id : String
  title : String
  channel : String
deriving DecidableEq, Repr

/-- The per-item entry appended to `results`. -/
structure ItemResult where
  video_id : String
  title : String
  success : Bool
  result : String
deriving DecidableEq, Repr

/-- The mutable loop state of `run_download`: the three counters, the
`results` list, and the trace of `time.sleep` calls (each recording the
slept duration). -/
structure Counts where
  success_count : Nat
  failed_count : Nat
  duplicate_count : Nat
  results : List ItemResult
  sleeps : List ℚ
deriving DecidableEq, Repr

/-- The empty loop state. -/
def initCounts : Counts :=
  { success_count := 0, failed_count := 0, duplicate_count := 0,
    results := [], sleeps := [] }

/-- One iteration body of the download loop (the call to
`download_transcript` is abstracted as `dl`): classify the outcome,
bump the matching counters, append the per-item result. -/
def stepVideo (dl : Video → Bool × String) (v : Video) (c : Counts) : Counts :=
  let r := dl v
  let item : ItemResult :=
    { video_id := v.id, title := v.title, success := r.1, result := r.2 }
  if r.1 then
    { c with success_count := c.success_count + 1, results := c.results ++ [item] }
  else if strContainsSub (lowerStr r.2) "duplicate" then
    { c with failed_count := c.failed_count + 1,
             duplicate_count := c.duplicate_count + 1,
             results := c.results ++ [item] }
  else
    { c with failed_count := c.failed_count + 1, results := c.results ++ [item] }

/-- The `for i, video in enumerate(videos_to_download)` loop, with the
inter-item delay slept after every item except the last. -/
def processVideos (dl : Video → Bool × String) (delay : ℚ) :
    List Video → Counts → Counts
  | [], c => c
  | v :: rest, c =>
      let c1 := stepVideo dl v c
      let c2 := if rest = [] then c1 else { c1 with sleeps := c1.sleeps ++ [delay] }
      processVideos dl delay rest c2

/-- The configuration dictionary consumed by `run_download` (an empty
string models a missing/falsy entry, matching Python truthiness; `delay`
defaults to 3.0 when absent). -/
structure RunConfig where
  api_key : String
  channel : String
  video_ids : String
  after_date : String
  folder : String
  delay : Option ℚ
  limit : Option Nat
deriving DecidableEq, Repr

/-- The summary dictionary returned by `run_download`
(`total_downloads` mirrors the source's duplicated `success_count` entry;
`sleeps` is the recorded sleep trace). -/
structure RunResult where
  success : Bool
  error : Option String
  total_videos : Nat
  total_downloads : Nat
  success_count : Nat
  failed_count : Nat
  duplicate_count : Nat
  folder : String
  results : List ItemResult
  sleeps : List ℚ
deriving DecidableEq, Repr

/-- The `{'success': False, 'error': ...}` early return. -/
def failedRun (e : String) : RunResult :=
  { success := false, error := some e, total_videos := 0, total_downloads := 0,
    success_count := 0, failed_count := 0, duplicate_count := 0, folder := "",
    results := [], sleeps := [] }

/-- Candidate synthesis for the explicit-IDs branch:
`[{'id': v, 'title': f'video_{v}', 'channel': folder or 'Direct_Downloads'} ...]`. -/
def parseVideoIds (video_ids folder_name : String) : List Video :=
  ((splitComma video_ids).map stripStr).map (fun vid =>
    { id := vid, title := "video_" ++ vid,
      channel := if folder_name ≠ "" then folder_name else "Direct_Downloads" })

/-- Model of `DownloadService.run_download`.  Here `get_api_key` models the injected
`get_api_key_func`; `dl` abstracts `download_transcript`; `resolve`
abstracts the channel branch (channel lookup → uploads playlist → candidate
list, already folder-tagged), with `Except.error` standing for a raised
exception there — caught by the function's outer `except` clause. -/
def run_download (get_api_key : String) (dl : Video → Bool × String)
    (resolve : RunConfig → Except String (List Video)) (cfg : RunConfig) :
    RunResult :=
  let api_key := if cfg.api_key ≠ "" then cfg.api_key else get_api_key
  if api_key = "" then failedRun "No API key available"
  else
    let delay := cfg.delay.getD 3
    let videosE : Except String (List Video) :=
      if cfg.video_ids ≠ "" then .ok (parseVideoIds cfg.video_ids cfg.folder)
      else if cfg.channel ≠ "" then resolve cfg
      else .ok []
    match videosE with
    | .error e => failedRun e
    | .ok videos =>
        let c := processVideos dl delay videos initCounts
        { success := true, error := none, total_videos := videos.length,
          total_downloads := c.success_count, success_count := c.success_count,
          failed_count := c.failed_count, duplicate_count := c.duplicate_count,
          folder := cfg.folder, results := c.results, sleeps := c.sleeps }

/-! ## `scheduler.py` -/

/-- The three cron triggers `_get_cron_trigger` can build. -/
inductive CronTrigger : Type
  | daily : CronTrigger
  | weekly : CronTrigger
  | monthly : CronTrigger
deriving DecidableEq, Repr

/-- Model of `JobScheduler._get_cron_trigger`: the raised `ValueError` on an
unsupported frequency is embedded as `Except.error`. -/
def _get_cron_trigger : String → Except String CronTrigger
  | "daily" => .ok .daily
  | "weekly" => .ok .weekly
  | "monthly" => .ok .monthly
  | f => .error ("Unsupported frequency: " ++ f)

/-- A persisted scheduled-job configuration (the fields of `job_config`
used by the scheduler logic; `folder_pfx` embeds the source's folder
prefix field). -/
structure SchedJob where
  name : String
  channels : List String
  frequency : String
  start_date : String
  folder_pfx : String
  last_run : Option String
  status : String
  total_downloads : Nat
  last_error : Option String
deriving DecidableEq, Repr

/-- The fresh `job_config` built by `add_scheduled_job`. -/
def newJobConfig (name : String) (channels : List String)
    (frequency start_date folder_pfx : String) : SchedJob :=
  { name := name, channels := channels, frequency := frequency,
    start_date := start_date, folder_pfx := folder_pfx, last_run := none,
    status := "active", total_downloads := 0, last_error := none }

/-- The dictionary returned by `add_scheduled_job`. -/
structure AddJobResult where
  success : Bool
  job_id : Option String
  error : Option String
deriving DecidableEq, Repr

/-- Scheduler state: whether `start()` has run, and the persisted job
mapping (`self.jobs`, written to disk by `_save_jobs` on every mutation). -/
structure SchedulerState where
  running : Bool
  jobs : List (String × SchedJob)
deriving DecidableEq, Repr

/-- Model of `JobScheduler.add_scheduled_job` (with the generated `job_id` and the
resolved `start_date` passed in; id generation hashes the current time).
The job is inserted into `self.jobs` and saved before any trigger is
built; `_get_cron_trigger` is consulted only inside
`_add_job_to_scheduler`, which runs only when the scheduler is running,
and whose exception is caught by the surrounding `try` after the mutation
has already happened.  The catch-up job uses a date trigger and never
validates the frequency. -/
def add_scheduled_job (st : SchedulerState) (job_id name : String)
    (channels : List String) (frequency start_date folder_pfx : String) :
    SchedulerState × AddJobResult :=
  let job := newJobConfig name channels frequency start_date folder_pfx
  let st' : SchedulerState := { st with jobs := assocSet st.jobs job_id job }
  if st.running then
    match _get_cron_trigger frequency with
    | .error e => (st', { success := false, job_id := none, error := some e })
    | .ok _ => (st', { success := true, job_id := some job_id, error := none })
  else
    (st', { success := true, job_id := some job_id, error := none })

/-- Model of `datetime.fromisoformat(d).strftime('%Y-%m-%d')` on a canonical ISO
timestamp string: its first ten characters. -/
def isoDate (s : String) : String :=
  String.mk (s.toList.take 10)

/-- The per-channel `download_config` dictionary built inside the loop of
`_run_scheduled_download` (`api_key: None`, `delay: 3.0`). -/
def schedChannelConfig (after_date folder_pfx channel : String) : RunConfig :=
  { api_key := "", channel := channel, video_ids := "",
    after_date := after_date,
    folder := if folder_pfx ≠ "" then folder_pfx ++ channel else channel,
    delay := some 3, limit := none }

/-- The `for channel in job_config['channels']` loop of
`_run_scheduled_download`: run the pipeline once per channel, add the
download count of each *successful* run to the running total, and record
the configs passed to `run_download`, in order. -/
def schedChannelLoop (get_api_key : String) (dl : Video → Bool × String)
    (resolve : RunConfig → Except String (List Video))
    (after_date folder_pfx : String) :
    List String → Nat × List RunConfig → Nat × List RunConfig
  | [], acc => acc
  | channel :: rest, acc =>
      let cfg := schedChannelConfig after_date folder_pfx channel
      let result := run_download get_api_key dl resolve cfg
      schedChannelLoop get_api_key dl resolve after_date folder_pfx rest
        (acc.1 + (if result.success then result.total_downloads else 0),
         acc.2 ++ [cfg])

/-- Model of `JobScheduler._run_scheduled_download` on one job: compute the
incremental date filter, run the pipeline once per channel in order, sum
the successful runs' download counts, then `update_job_status(job_id,
'completed')` (which also stamps `last_run := now` and clears
`last_error`).  Returns the updated job and the per-channel configs
actually passed to `run_download`, in order.  The source's `except`
handler (status `'failed'`) can only fire on failures outside
`run_download` — `run_download` catches its own exceptions and returns a
result dictionary — and the modeled operations are total, so it does not
appear here. -/
def _run_scheduled_download (get_api_key : String)
    (dl : Video → Bool × String)
    (resolve : RunConfig → Except String (List Video)) (now : String)
    (job : SchedJob) : SchedJob × List RunConfig :=
  let after_date :=
    match job.last_run with
    | some d => isoDate d
    | none => job.start_date
  let r := schedChannelLoop get_api_key dl resolve after_date job.folder_pfx
    job.channels (0, [])
  ({ job with total_downloads := job.total_downloads + r.1,
              status := "completed", last_run := some now,
              last_error := none }, r.2)

/-! ## Shared lemmas -/

/-- Dropping the entries keyed `k` does not change a search for a
different key `k'`. -/
theorem find?_filter_ne {α : Type} (m : List (String × α)) (k k' : String)
    (h : k' ≠ k) :
    List.find? (fun e => decide (e.1 = k'))
        (m.filter (fun e => decide (e.1 ≠ k))) =
      List.find? (fun e => decide (e.1 = k')) m := by
  induction m with
  | nil => rfl
  | cons e rest ih =>
      by_cases hek : e.1 = k
      · have hne : ¬ e.1 = k' := by rw [hek]; exact fun hkk => h hkk.symm
        rw [List.filter_cons_of_neg (by simpa using hek), ih,
          List.find?_cons_of_neg _ (by simpa using hne)]
      · rw [List.filter_cons_of_pos (by simpa using hek)]
        by_cases he : e.1 = k'
        · rw [List.find?_cons_of_pos _ (by simpa using he),
            List.find?_cons_of_pos _ (by simpa using he)]
        · rw [List.find?_cons_of_neg _ (by simpa using he),
            List.find?_cons_of_neg _ (by simpa using he), ih]

/-- Inserting under key `k` does not disturb lookups of a different key. -/
theorem assocGet_assocSet_ne {α : Type} (m : List (String × α)) (k k' : String)
    (v : α) (h : k' ≠ k) : assocGet (assocSet m k v) k' = assocGet m k' := by
  unfold assocGet assocSet
  rw [List.find?_append, find?_filter_ne m k k' h]
  have hlast : List.find? (fun e => decide (e.1 = k')) [(k, v)] = none := by
    rw [List.find?_eq_none]
    intro x hx
    simp only [List.mem_singleton] at hx
    subst hx
    simp only [decide_eq_true_eq]
    exact fun hkk => h hkk.symm
  rw [hlast, Option.or_none]

/-- Inserting under key `k` makes `k` look up the inserted value. -/
theorem assocGet_assocSet_self {α : Type} (m : List (String × α)) (k : String)
    (v : α) : assocGet (assocSet m k v) k = some v := by
  unfold assocGet assocSet
  rw [List.find?_append]
  have hfilt : List.find? (fun e => decide (e.1 = k))
      (m.filter (fun e => decide (e.1 ≠ k))) = none := by
    rw [List.find?_eq_none]
    intro x hx
    have := (List.mem_filter.mp hx).2
    simpa using this
  have hlast : List.find? (fun e => decide (e.1 = k)) [(k, v)] = some (k, v) := by
    simp [List.find?]
  rw [hfilt, hlast]
  rfl

/-- The write path and the read path of the storage adapter never coincide:
the saved file name carries the `video_id` prefix, the read path does not. -/
theorem savePath_ne_getPath (channel_name video_id title : String) :
    savePath channel_name video_id title ≠ getPath channel_name title := by
  intro h
  have hlen := congrArg String.length h
  have h1 : ("_" : String).length = 1 := rfl
  simp only [savePath, getPath, String.length_append] at hlen
  omega

/-! ## Claim theorems -/

/-- Claim C9: for every input name, `_sanitize_name` removes every
occurrence of the characters `< > : " / \ | ? * @`, replaces every space
with an underscore, and truncates the result to at most 100 characters. -/
theorem claim_C9_sanitize (name : String) :
    (sanitize_name name).length ≤ 100 ∧
    (∀ c ∈ (sanitize_name name).toList, c ∉ invalidPathChars ∧ c ≠ ' ') ∧
    (sanitize_name name).toList =
      ((name.toList.filter (fun c => !(invalidPathChars.contains c))).map
        (fun c => if c = ' ' then '_' else c)).take 100 := by
  refine ⟨?_, ?_, rfl⟩
  · show (List.take 100 _).length ≤ 100
    simp [List.length_take]
  · intro c hc
    have hc' := List.mem_of_mem_take hc
    obtain ⟨d, hd, rfl⟩ := List.mem_map.mp hc'
    have hdf := (List.mem_filter.mp hd).2
    have hdmem : d ∉ invalidPathChars := by simpa using hdf
    by_cases hsp : d = ' '
    · subst hsp
      refine ⟨by decide, by decide⟩
    · simp only [if_neg hsp]
      exact ⟨hdmem, hsp⟩

/-- Witness for C9 at a concrete name containing stripped characters and
spaces. -/
theorem claim_C9_sanitize_witness :
    (sanitize_name "My <Title>? x").length ≤ 100 ∧
    '<' ∉ (sanitize_name "My <Title>? x").toList :=
  ⟨(claim_C9_sanitize "My <Title>? x").1,
   fun hmem =>
     ((claim_C9_sanitize "My <Title>? x").2.1 '<' hmem).1 (by decide)⟩

/-- Claim C5: for a video with no manually created English transcript but
with an auto-generated English transcript, the tier block returns that
transcript tagged `auto-generated` and never attempts tier 3 (any English
transcript) or tier 4 (first transcript in any language). -/
theorem claim_C5_tier_fallback (tl : TranscriptListing) (t : String)
    (h1 : tl.manual_en = none) (h2 : tl.generated_en = some t) :
    (selectTranscript tl).1 = some (t, "auto-generated") ∧
    (selectTranscript tl).2 = [1, 2] ∧
    3 ∉ (selectTranscript tl).2 ∧ 4 ∉ (selectTranscript tl).2 := by
  refine ⟨?_, ?_, ?_, ?_⟩ <;> simp [selectTranscript, h1, h2]

/-- Witness for C5 at a concrete transcript listing. -/
theorem claim_C5_tier_fallback_witness :
    (selectTranscript ⟨none, some "txt", some "x", some ("y", "de")⟩).1 =
        some ("txt", "auto-generated") ∧
    (selectTranscript ⟨none, some "txt", some "x", some ("y", "de")⟩).2 = [1, 2] :=
  ⟨(claim_C5_tier_fallback ⟨none, some "txt", some "x", some ("y", "de")⟩ "txt"
      rfl rfl).1,
   (claim_C5_tier_fallback ⟨none, some "txt", some "x", some ("y", "de")⟩ "txt"
      rfl rfl).2.1⟩

/-- Claim C10: when the existence probe's search request raises or returns
a non-200 status, `check_transcript_exists` returns `False`; consequently
`save_transcript` treats the record as absent and proceeds to issue the
contents PUT — carrying the existing file's SHA, hence possibly
overwriting — instead of reporting a duplicate or an error. -/
theorem claim_C10_failed_probe_writes (probe : SearchOutcome)
    (existing_sha : Option String) (put_status : Nat)
    (channel_name video_id title : String)
    (h : ∀ n, probe ≠ SearchOutcome.response 200 n) :
    check_transcript_exists probe = false ∧
    (save_transcript probe existing_sha put_status channel_name video_id
        title).1.duplicate = false ∧
    (save_transcript probe existing_sha put_status channel_name video_id
        title).2 =
      some { path := savePath channel_name video_id title, sha := existing_sha } ∧
    (put_status = 200 →
      (save_transcript probe existing_sha put_status channel_name video_id
          title).1.success = true) := by
  have hchk : check_transcript_exists probe = false := by
    cases probe with
    | raised => rfl
    | response s n =>
        by_cases hs : s = 200
        · exact absurd (by rw [hs]) (h n)
        · simp [check_transcript_exists, hs]
  refine ⟨hchk, ?_, ?_, ?_⟩
  · by_cases hp : put_status = 201 ∨ put_status = 200 <;>
      simp [save_transcript, hchk, hp]
  · by_cases hp : put_status = 201 ∨ put_status = 200 <;>
      simp [save_transcript, hchk, hp]
  · intro h200
    simp [save_transcript, hchk, h200]

/-- Witness for C10: a 403-status probe with an existing blob SHA and a
succeeding PUT. -/
theorem claim_C10_failed_probe_writes_witness :
    check_transcript_exists (SearchOutcome.response 403 0) = false ∧
    (save_transcript (SearchOutcome.response 403 0) (some "sha0") 200 "chan"
        "vid" "title").1.duplicate = false ∧
    (save_transcript (SearchOutcome.response 403 0) (some "sha0") 200 "chan"
        "vid" "title").1.success = true := by
  have happ := claim_C10_failed_probe_writes (SearchOutcome.response 403 0)
    (some "sha0") 200 "chan" "vid" "title" (by intro n hn; simp at hn)
  exact ⟨happ.1, happ.2.1, happ.2.2.2 rfl⟩

/-- Claim C2, counterexample: save a transcript on an empty repository and
read it back by the same `(channel, title)`; the save succeeds but
`get_transcript` returns `none` — the claim asserted it returns the stored
record. -/
theorem claim_C2_counterexample :
    (save_transcript_repo [] "chan" "vid1" "My Title" "text").2.success = true ∧
    get_transcript (save_transcript_repo [] "chan" "vid1" "My Title" "text").1
      "chan" "My Title" = none := by
  decide

/-- Claim C2 (amended): a record stored via `save_transcript` is never
returned by a subsequent `get_transcript(channelName, title)` with the same
channel name and title — the write path is
`channels/[channel]/[video_id]_[title].json` while the read path is
`channels/[channel]/[title].json`, so `get_transcript` is entirely
unaffected by the save and reports notFound on a fresh repository. -/
theorem claim_C2_amended_get_misses_save (repo : Repo)
    (channel_name video_id title transcript_text : String) :
    get_transcript
        (save_transcript_repo repo channel_name video_id title
          transcript_text).1 channel_name title =
      get_transcript repo channel_name title := by
  unfold save_transcript_repo
  by_cases hdup : searchVideoId repo video_id = true
  · simp [hdup]
  · simp only [Bool.not_eq_true] at hdup
    simp only [hdup, Bool.false_eq_true, if_false]
    unfold get_transcript
    exact assocGet_assocSet_ne repo (savePath channel_name video_id title)
      (getPath channel_name title) _
      (fun h => savePath_ne_getPath channel_name video_id title h.symm)

/-- Claim C4, counterexample: `add_scheduled_job` with frequency
`"hourly"`.  With the scheduler not started, the call succeeds (no
configuration error at all); with the scheduler started, the call reports
an error but the job has nevertheless been added to the persisted job
mapping.  Both contradict the claim. -/
theorem claim_C4_counterexample :
    ((add_scheduled_job ⟨false, []⟩ "job1" "My Job" ["chanA"] "hourly"
        "2024-01-01" "").2.success = true ∧
      assocGet (add_scheduled_job ⟨false, []⟩ "job1" "My Job" ["chanA"]
          "hourly" "2024-01-01" "").1.jobs "job1" =
        some (newJobConfig "My Job" ["chanA"] "hourly" "2024-01-01" "")) ∧
    ((add_scheduled_job ⟨true, []⟩ "job2" "My Job" ["chanA"] "hourly"
        "2024-01-01" "").2.success = false ∧
      assocGet (add_scheduled_job ⟨true, []⟩ "job2" "My Job" ["chanA"]
          "hourly" "2024-01-01" "").1.jobs "job2" =
        some (newJobConfig "My Job" ["chanA"] "hourly" "2024-01-01" "")) := by
  decide

/-- Claim C4 (amended): with an unrecognized frequency the job is always
added to the persisted job mapping before any validation; if the scheduler
is running the call then returns the cron-trigger configuration error
(with the job still persisted), and if the scheduler is not running the
call succeeds outright and the error is deferred. -/
theorem claim_C4_amended_job_persisted (st : SchedulerState)
    (job_id name : String) (channels : List String)
    (frequency start_date folder_pfx e : String)
    (h : _get_cron_trigger frequency = .error e) :
    assocGet (add_scheduled_job st job_id name channels frequency start_date
        folder_pfx).1.jobs job_id =
      some (newJobConfig name channels frequency start_date folder_pfx) ∧
    (st.running = true →
      (add_scheduled_job st job_id name channels frequency start_date
          folder_pfx).2.success = false ∧
      (add_scheduled_job st job_id name channels frequency start_date
          folder_pfx).2.error = some e) ∧
    (st.running = false →
      (add_scheduled_job st job_id name channels frequency start_date
          folder_pfx).2.success = true) := by
  refine ⟨?_, ?_, ?_⟩
  · unfold add_scheduled_job
    by_cases hr : st.running = true <;>
      simp [hr, h, assocGet_assocSet_self]
  · intro hr
    simp [add_scheduled_job, hr, h]
  · intro hr
    simp [add_scheduled_job, hr, h]

/-- Witness for the amended C4 at a concrete running scheduler and the
frequency `"hourly"`. -/
theorem claim_C4_amended_job_persisted_witness :
    assocGet (add_scheduled_job ⟨true, []⟩ "j1" "N" ["c"] "hourly"
        "2024-01-01" "").1.jobs "j1" =
      some (newJobConfig "N" ["c"] "hourly" "2024-01-01" "") ∧
    (add_scheduled_job ⟨true, []⟩ "j1" "N" ["c"] "hourly" "2024-01-01"
        "").2.success = false := by
  have happ := claim_C4_amended_job_persisted ⟨true, []⟩ "j1" "N" ["c"]
    "hourly" "2024-01-01" "" "Unsupported frequency: hourly" rfl
  exact ⟨happ.1, (happ.2.1 rfl).1⟩

/-- Each loop iteration increments exactly one of the success/failed
counters, and the duplicate counter only together with the failed one. -/
theorem stepVideo_counters (dl : Video → Bool × String) (v : Video)
    (c : Counts) :
    (stepVideo dl v c).success_count + (stepVideo dl v c).failed_count =
      c.success_count + c.failed_count + 1 ∧
    (stepVideo dl v c).duplicate_count + c.failed_count ≤
      (stepVideo dl v c).failed_count + c.duplicate_count := by
  unfold stepVideo
  by_cases h1 : (dl v).1 = true
  · simp [h1]
    omega
  · simp only [Bool.not_eq_true] at h1
    by_cases h2 : strContainsSub (lowerStr (dl v).2) "duplicate" = true <;>
      simp [h1, h2] <;> omega

/-- Each loop iteration appends exactly one entry to `results` and leaves
`sleeps` unchanged. -/
theorem stepVideo_trace (dl : Video → Bool × String) (v : Video)
    (c : Counts) :
    (stepVideo dl v c).results =
      c.results ++ [{ video_id := v.id, title := v.title,
                      success := (dl v).1, result := (dl v).2 }] ∧
    (stepVideo dl v c).sleeps = c.sleeps := by
  unfold stepVideo
  by_cases h1 : (dl v).1 = true
  · simp [h1]
  · simp only [Bool.not_eq_true] at h1
    by_cases h2 : strContainsSub (lowerStr (dl v).2) "duplicate" = true <;>
      simp [h1, h2]

/-- The download loop preserves the counting invariant: the counters gain
exactly one success-or-failure per item, and the duplicate counter never
outpaces the failed counter. -/
theorem processVideos_counters (dl : Video → Bool × String) (delay : ℚ)
    (videos : List Video) (c : Counts) :
    (processVideos dl delay videos c).success_count +
        (processVideos dl delay videos c).failed_count =
      c.success_count + c.failed_count + videos.length ∧
    (processVideos dl delay videos c).duplicate_count + c.failed_count ≤
      (processVideos dl delay videos c).failed_count + c.duplicate_count := by
  induction videos generalizing c with
  | nil =>
      simp [processVideos]
      omega
  | cons v rest ih =>
      have hstep := stepVideo_counters dl v c
      by_cases hr : rest = []
      · subst hr
        simpa [processVideos] using ⟨by omega, hstep.2⟩
      · have heq : processVideos dl delay (v :: rest) c =
            processVideos dl delay rest
              { stepVideo dl v c with
                sleeps := (stepVideo dl v c).sleeps ++ [delay] } := by
          simp [processVideos, hr]
        rw [heq]
        have hrec := ih { stepVideo dl v c with
          sleeps := (stepVideo dl v c).sleeps ++ [delay] }
        simp only [List.length_cons]
        constructor
        · have := hrec.1
          simp only at this
          omega
        · have := hrec.2
          simp only at this
          omega

/-- The download loop visits every candidate in order (one `results` entry
per item, recording the outcome of the `download_transcript` call made for
it) and sleeps the inter-item delay after every item except the last. -/
theorem processVideos_trace (dl : Video → Bool × String) (delay : ℚ)
    (videos : List Video) (c : Counts) :
    (processVideos dl delay videos c).results =
      c.results ++ videos.map (fun v =>
        { video_id := v.id, title := v.title,
          success := (dl v).1, result := (dl v).2 }) ∧
    (processVideos dl delay videos c).sleeps =
      c.sleeps ++ List.replicate (videos.length - 1) delay := by
  induction videos generalizing c with
  | nil => simp [processVideos]
  | cons v rest ih =>
      have hstep := stepVideo_trace dl v c
      by_cases hr : rest = []
      · subst hr
        simpa [processVideos] using hstep
      · have heq : processVideos dl delay (v :: rest) c =
            processVideos dl delay rest
              { stepVideo dl v c with
                sleeps := (stepVideo dl v c).sleeps ++ [delay] } := by
          simp [processVideos, hr]
        rw [heq]
        have hrec := ih { stepVideo dl v c with
          sleeps := (stepVideo dl v c).sleeps ++ [delay] }
        obtain ⟨hres, hsl⟩ := hrec
        constructor
        · simp only at hres
          rw [hres, hstep.1]
          simp [List.map_cons, List.append_assoc]
        · simp only at hsl
          rw [hsl, hstep.2]
          have hlen : rest.length - 1 + 1 = rest.length := by
            cases rest with
            | nil => exact absurd rfl hr
            | cons a t => simp
          have : (v :: rest).length - 1 = rest.length := by simp
          rw [this, List.append_assoc]
          congr 1
          rw [← hlen, List.replicate_succ]
          rfl

/-- Claim C3: every pipeline run that completes normally returns a summary
with `success_count + failed_count` equal to the number of candidate
videos, and with `duplicate_count ≤ failed_count` (duplicates are a subset
of failures: each duplicate increments both counters). -/
theorem claim_C3_run_summary_counts (get_api_key : String)
    (dl : Video → Bool × String)
    (resolve : RunConfig → Except String (List Video)) (cfg : RunConfig)
    (h : (run_download get_api_key dl resolve cfg).success = true) :
    (run_download get_api_key dl resolve cfg).success_count +
        (run_download get_api_key dl resolve cfg).failed_count =
      (run_download get_api_key dl resolve cfg).total_videos ∧
    (run_download get_api_key dl resolve cfg).duplicate_count ≤
      (run_download get_api_key dl resolve cfg).failed_count := by
  unfold run_download at h ⊢
  by_cases hk : (if cfg.api_key ≠ "" then cfg.api_key else get_api_key) = ""
  · rw [if_pos hk] at h
    simp [failedRun] at h
  · rw [if_neg hk] at h ⊢
    cases hv : (if cfg.video_ids ≠ "" then
        Except.ok (parseVideoIds cfg.video_ids cfg.folder)
      else if cfg.channel ≠ "" then resolve cfg
      else Except.ok ([] : List Video)) with
    | error e =>
        rw [hv] at h
        simp [failedRun] at h
    | ok videos =>
        obtain ⟨h1, h2⟩ := processVideos_counters dl (cfg.delay.getD 3) videos
          { success_count := 0, failed_count := 0, duplicate_count := 0,
            results := [], sleeps := [] }
        simp only at h1 h2
        simp [initCounts]
        omega

/-- Witness for C3: a concrete explicit-IDs run with an always-succeeding
fetcher. -/
theorem claim_C3_run_summary_counts_witness :
    (run_download "k" (fun _ => (true, "ok")) (fun _ => Except.ok [])
        ⟨"", "", "abc123", "", "", none, none⟩).success = true ∧
    (run_download "k" (fun _ => (true, "ok")) (fun _ => Except.ok [])
          ⟨"", "", "abc123", "", "", none, none⟩).success_count +
        (run_download "k" (fun _ => (true, "ok")) (fun _ => Except.ok [])
          ⟨"", "", "abc123", "", "", none, none⟩).failed_count =
      (run_download "k" (fun _ => (true, "ok")) (fun _ => Except.ok [])
        ⟨"", "", "abc123", "", "", none, none⟩).total_videos :=
  ⟨rfl,
   (claim_C3_run_summary_counts "k" (fun _ => (true, "ok"))
      (fun _ => Except.ok []) ⟨"", "", "abc123", "", "", none, none⟩ rfl).1⟩

/-- Claim C8: a run configured with `video_ids = "abc123,def456"` and no
channel produces exactly two candidates titled `video_abc123` and
`video_def456`, invokes the fetch-and-save step (`download_transcript`)
for each of them in order, sleeps the configured inter-item delay
(default 3.0) after every item except the last — here exactly one sleep —
and returns a summary with `total_videos = 2`. -/
theorem claim_C8_explicit_ids_run (get_api_key : String)
    (dl : Video → Bool × String)
    (resolve : RunConfig → Except String (List Video)) (delayOpt : Option ℚ)
    (hk : get_api_key ≠ "") :
    (run_download get_api_key dl resolve
        ⟨"", "", "abc123,def456", "", "", delayOpt, none⟩).success = true ∧
    (run_download get_api_key dl resolve
        ⟨"", "", "abc123,def456", "", "", delayOpt, none⟩).total_videos = 2 ∧
    (run_download get_api_key dl resolve
          ⟨"", "", "abc123,def456", "", "", delayOpt, none⟩).results.map
        (fun ir => ir.title) = ["video_abc123", "video_def456"] ∧
    (run_download get_api_key dl resolve
          ⟨"", "", "abc123,def456", "", "", delayOpt, none⟩).results.map
        (fun ir => ir.video_id) = ["abc123", "def456"] ∧
    (run_download get_api_key dl resolve
        ⟨"", "", "abc123,def456", "", "", delayOpt, none⟩).sleeps =
      [delayOpt.getD 3] := by
  have hparse : parseVideoIds "abc123,def456" "" =
      [{ id := "abc123", title := "video_abc123",
         channel := "Direct_Downloads" },
       { id := "def456", title := "video_def456",
         channel := "Direct_Downloads" }] := by decide
  obtain ⟨hres, hsl⟩ := processVideos_trace dl (delayOpt.getD 3)
    [{ id := "abc123", title := "video_abc123", channel := "Direct_Downloads" },
     { id := "def456", title := "video_def456", channel := "Direct_Downloads" }]
    { success_count := 0, failed_count := 0, duplicate_count := 0,
      results := [], sleeps := [] }
  simp only at hres hsl
  unfold run_download
  simp only [hparse]
  simp [hk, hres, hsl, initCounts, List.replicate]

/-- Witness for C8 at a concrete API key, fetcher and delay. -/
theorem claim_C8_explicit_ids_run_witness :
    (run_download "k" (fun _ => (true, "u")) (fun _ => Except.ok [])
        ⟨"", "", "abc123,def456", "", "", none, none⟩).total_videos = 2 ∧
    (run_download "k" (fun _ => (true, "u")) (fun _ => Except.ok [])
        ⟨"", "", "abc123,def456", "", "", none, none⟩).sleeps = [(3 : ℚ)] := by
  have happ := claim_C8_explicit_ids_run "k" (fun _ => (true, "u"))
    (fun _ => Except.ok []) none (by decide)
  exact ⟨happ.2.1, by simpa using happ.2.2.2.2⟩

/-- With no limit, one page's inner loop appends exactly its
filter-passing items and never returns early. -/
theorem processItems_none (channel_id : String) (after_date : Option Int)
    (its : List PlaylistItem) (acc : List VideoEntry) :
    processItems channel_id after_date none its acc =
      (acc ++ (its.filter (passesFilter after_date)).map (mkEntry channel_id),
       false) := by
  induction its generalizing acc with
  | nil => simp [processItems]
  | cons it its ih =>
      by_cases hp : passesFilter after_date it = true
      · simp [processItems, hp, limitHit, ih, List.filter_cons,
          List.append_assoc]
      · simp [processItems, hp, ih, List.filter_cons]

/-- With no limit, pagination walks every page and collects exactly the
filter-passing items of the concatenated pages, in order. -/
theorem fetchPages_none (channel_id : String) (after_date : Option Int)
    (pages : List (List PlaylistItem)) (acc : List VideoEntry) :
    fetchPages channel_id after_date none pages acc =
      (acc ++ ((pages.flatten).filter (passesFilter after_date)).map
        (mkEntry channel_id), pages.length) := by
  induction pages generalizing acc with
  | nil => simp [fetchPages]
  | cons p ps ih =>
      rw [show (p :: ps).flatten = p ++ ps.flatten from rfl]
      simp [fetchPages, processItems_none, ih, List.filter_append,
        List.append_assoc]

/-- Claim C6: for every `afterTimestamp` value `t`, the candidate listing
contains exactly the playlist items whose publish timestamp is strictly
greater than `t`; an item published exactly at `t` is excluded. -/
theorem claim_C6_strict_after_filter (pages : List (List PlaylistItem))
    (channel_id : String) (t : Int) :
    (get_video_ids_from_playlist pages channel_id (some t) none).1 =
      ((pages.flatten).filter
        (fun it => decide (t < it.publishedAt))).map (mkEntry channel_id) ∧
    ∀ e ∈ (get_video_ids_from_playlist pages channel_id (some t) none).1,
      t < e.date := by
  have h1 : (get_video_ids_from_playlist pages channel_id (some t) none).1 =
      ((pages.flatten).filter (passesFilter (some t))).map
        (mkEntry channel_id) := by
    unfold get_video_ids_from_playlist
    rw [fetchPages_none]
    simp
  refine ⟨by simpa [passesFilter] using h1, ?_⟩
  intro e he
  rw [h1] at he
  obtain ⟨it, hit, rfl⟩ := List.mem_map.mp he
  have hpass := (List.mem_filter.mp hit).2
  simpa [mkEntry, passesFilter] using hpass

/-- Witness for C6 at a concrete page whose items sit at timestamps 4, 5
and 6 with filter value 5: only the timestamp-6 item survives. -/
theorem claim_C6_strict_after_filter_witness :
    (get_video_ids_from_playlist
        [[{ videoId := "a", publishedAt := 4, title := "ta",
            channelTitle := "c", itemChannelId := "ci" },
          { videoId := "b", publishedAt := 5, title := "tb",
            channelTitle := "c", itemChannelId := "ci" },
          { videoId := "d", publishedAt := 6, title := "td",
            channelTitle := "c", itemChannelId := "ci" }]]
        "ch" (some 5) none).1 =
      [mkEntry "ch" ({ videoId := "d", publishedAt := 6, title := "td",
                       channelTitle := "c", itemChannelId := "ci" } :
                      PlaylistItem)] := by
  have happ := claim_C6_strict_after_filter
    [[{ videoId := "a", publishedAt := 4, title := "ta",
        channelTitle := "c", itemChannelId := "ci" },
      { videoId := "b", publishedAt := 5, title := "tb",
        channelTitle := "c", itemChannelId := "ci" },
      { videoId := "d", publishedAt := 6, title := "td",
        channelTitle := "c", itemChannelId := "ci" }]] "ch" 5
  rw [happ.1]
  decide

/-- With limit `N` and fewer than `N` items accumulated, one page's inner
loop appends the filter-passing items up to the missing count and returns
early exactly when the page can fill it. -/
theorem processItems_limited (channel_id : String) (after_date : Option Int)
    (N : Nat) (its : List PlaylistItem) :
    ∀ acc : List VideoEntry, acc.length < N →
    processItems channel_id after_date (some N) its acc =
      (acc ++ ((its.filter (passesFilter after_date)).take
          (N - acc.length)).map (mkEntry channel_id),
       decide (N - acc.length ≤
         (its.filter (passesFilter after_date)).length)) := by
  induction its with
  | nil =>
      intro acc hacc
      simp [processItems]
      omega
  | cons it its ih =>
      intro acc hacc
      by_cases hp : passesFilter after_date it = true
      · by_cases hhit : N ≤ acc.length + 1
        · have hlim : limitHit (some N) (acc.length + 1) = true := by
            simp [limitHit]
            omega
          have h1 : N - acc.length = 1 := by omega
          simp [processItems, hp, hlim, h1, List.filter_cons,
            List.take_succ_cons]
        · have hlim : limitHit (some N) (acc.length + 1) = false := by
            simp [limitHit]
            omega
          have hrec := ih (acc ++ [mkEntry channel_id it])
            (by simp; omega)
          have h2 : N - acc.length = (N - (acc.length + 1)) + 1 := by omega
          simp only [processItems, hp, if_true, hlim, Bool.false_eq_true,
            if_false, hrec, List.filter_cons, h2, List.take_succ_cons]
          simp [List.append_assoc]
          intro hcontra
          rw [hlim] at hcontra
          exact Bool.noConfusion hcontra
      · have hrec := ih acc hacc
        simp [processItems, hp, hrec, List.filter_cons]

/-- With limit `N`, pagination collects the first `N - acc.length` missing
filter-passing items of the concatenated pages and requests exactly
`specMinPages` pages. -/
theorem fetchPages_limited (channel_id : String) (after_date : Option Int)
    (N : Nat) (pages : List (List PlaylistItem)) :
    ∀ acc : List VideoEntry, acc.length < N →
    fetchPages channel_id after_date (some N) pages acc =
      (acc ++ (((pages.flatten).filter (passesFilter after_date)).take
          (N - acc.length)).map (mkEntry channel_id),
       specMinPages after_date pages (N - acc.length)) := by
  induction pages with
  | nil =>
      intro acc hacc
      simp [fetchPages, specMinPages]
  | cons p ps ih =>
      intro acc hacc
      have hpage := processItems_limited channel_id after_date N p acc hacc
      by_cases hearly :
          N - acc.length ≤ (p.filter (passesFilter after_date)).length
      · have hdec : decide (N - acc.length ≤
            (p.filter (passesFilter after_date)).length) = true := by
          simpa using hearly
        rw [show (p :: ps).flatten = p ++ ps.flatten from rfl,
          List.filter_append, List.take_append_of_le_length hearly]
        simp only [fetchPages, hpage, hdec]
        simp [specMinPages, hearly]
      · have hdec : decide (N - acc.length ≤
            (p.filter (passesFilter after_date)).length) = false := by
          simpa using hearly
        have htk : ((p.filter (passesFilter after_date)).take
            (N - acc.length)) = p.filter (passesFilter after_date) :=
          List.take_of_length_le (by omega)
        have hlen : (acc ++ ((p.filter (passesFilter after_date)).map
            (mkEntry channel_id))).length < N := by
          simp [List.length_append]
          omega
        have hrec := ih (acc ++ ((p.filter (passesFilter after_date)).map
          (mkEntry channel_id))) hlen
        simp only [List.length_append, List.length_map] at hrec
        have harg : N - (acc.length +
              (p.filter (passesFilter after_date)).length) =
            N - acc.length - (p.filter (passesFilter after_date)).length := by
          omega
        rw [harg] at hrec
        simp only [fetchPages, hpage, hdec, htk, hrec]
        rw [show (p :: ps).flatten = p ++ ps.flatten from rfl,
          List.filter_append, List.take_append_eq_append_take, htk]
        simp only [Prod.mk.injEq]
        constructor
        · simp [List.append_assoc]
        · simp [specMinPages, hearly]
          omega

/-- The value `specMinPages` never exceeds the number of available pages. -/
theorem specMinPages_le_length (after_date : Option Int)
    (pages : List (List PlaylistItem)) (n : Nat) :
    specMinPages after_date pages n ≤ pages.length := by
  induction pages generalizing n with
  | nil => simp [specMinPages]
  | cons p ps ih =>
      simp only [specMinPages, List.length_cons]
      by_cases hc : n ≤ (p.filter (passesFilter after_date)).length
      · rw [if_pos hc]
        omega
      · rw [if_neg hc]
        have := ih (n - (p.filter (passesFilter after_date)).length)
        omega

/-- The value `specMinPages` is minimal: as soon as some prefix of the pages holds
the requested number of filter-passing items, no further page is used. -/
theorem specMinPages_min (after_date : Option Int)
    (pages : List (List PlaylistItem)) (n : Nat) (hn : 0 < n) (j : Nat)
    (hj : n ≤ (((pages.take j).flatten).filter
      (passesFilter after_date)).length) :
    specMinPages after_date pages n ≤ j := by
  induction pages generalizing n j with
  | nil => simp [specMinPages]
  | cons p ps ih =>
      cases j with
      | zero =>
          simp at hj
          omega
      | succ j' =>
          rw [List.take_succ_cons,
            show (p :: (ps.take j')).flatten = p ++ (ps.take j').flatten
              from rfl, List.filter_append, List.length_append] at hj
          by_cases hc : n ≤ (p.filter (passesFilter after_date)).length
          · simp [specMinPages, hc]
          · simp only [specMinPages, hc, if_false]
            have hrec := ih (n - (p.filter (passesFilter after_date)).length)
              (by omega) j' (by omega)
            omega

/-- Claim C7: with a positive limit `N`, the playlist listing returns
exactly `min N (number of items passing the date filter)` items — the
first `N` filter-passing items in page order — and stops requesting pages
as soon as `N` filtered items have been collected (it uses no more pages
than any prefix that already contains `N` passing items, and never more
pages than exist). -/
theorem claim_C7_limit_truncation (pages : List (List PlaylistItem))
    (channel_id : String) (after_date : Option Int) (N : Nat)
    (hN : 0 < N) :
    (get_video_ids_from_playlist pages channel_id after_date (some N)).1 =
      (((pages.flatten).filter (passesFilter after_date)).take N).map
        (mkEntry channel_id) ∧
    (get_video_ids_from_playlist pages channel_id after_date
        (some N)).1.length =
      min N ((pages.flatten).filter (passesFilter after_date)).length ∧
    (get_video_ids_from_playlist pages channel_id after_date (some N)).2 ≤
      pages.length ∧
    ∀ j : Nat, N ≤ (((pages.take j).flatten).filter
        (passesFilter after_date)).length →
      (get_video_ids_from_playlist pages channel_id after_date
        (some N)).2 ≤ j := by
  have hfetch := fetchPages_limited channel_id after_date N pages [] (by simpa)
  unfold get_video_ids_from_playlist
  rw [hfetch]
  simp only [List.nil_append, Nat.sub_zero]
  refine ⟨rfl, ?_, ?_, ?_⟩
  · simp only [List.length_map, List.length_take, List.length_nil,
      Nat.sub_zero]
  · exact specMinPages_le_length after_date pages N
  · intro j hj
    exact specMinPages_min after_date pages N hN j hj

/-- Witness for C7 at a concrete page list: two pages of one item each,
limit 1 — only the first page is requested. -/
theorem claim_C7_limit_truncation_witness :
    (get_video_ids_from_playlist
        [[{ videoId := "a", publishedAt := 5, title := "ta",
            channelTitle := "c", itemChannelId := "ci" }],
         [{ videoId := "b", publishedAt := 6, title := "tb",
            channelTitle := "c", itemChannelId := "ci" }]]
        "ch" none (some 1)).1.length = min 1 2 ∧
    (get_video_ids_from_playlist
        [[{ videoId := "a", publishedAt := 5, title := "ta",
            channelTitle := "c", itemChannelId := "ci" }],
         [{ videoId := "b", publishedAt := 6, title := "tb",
            channelTitle := "c", itemChannelId := "ci" }]]
        "ch" none (some 1)).2 ≤ 1 := by
  have happ := claim_C7_limit_truncation
    [[{ videoId := "a", publishedAt := 5, title := "ta",
        channelTitle := "c", itemChannelId := "ci" }],
     [{ videoId := "b", publishedAt := 6, title := "tb",
        channelTitle := "c", itemChannelId := "ci" }]]
    "ch" none 1 (by decide)
  refine ⟨by simpa using happ.2.1, happ.2.2.2 1 (by decide)⟩

/-- The scheduler's channel loop builds one pipeline config per channel of
the job, in order, whatever the per-channel outcomes are, and never
decreases the accumulated download count. -/
theorem schedChannelLoop_trace (get_api_key : String)
    (dl : Video → Bool × String)
    (resolve : RunConfig → Except String (List Video))
    (after_date folder_pfx : String) (channels : List String) :
    ∀ acc : Nat × List RunConfig,
      (schedChannelLoop get_api_key dl resolve after_date folder_pfx
          channels acc).2 =
        acc.2 ++ channels.map (schedChannelConfig after_date folder_pfx) ∧
      acc.1 ≤ (schedChannelLoop get_api_key dl resolve after_date folder_pfx
          channels acc).1 := by
  induction channels with
  | nil =>
      intro acc
      simp [schedChannelLoop]
  | cons ch rest ih =>
      intro acc
      obtain ⟨h1, h2⟩ := ih
        (acc.1 + (if (run_download get_api_key dl resolve
              (schedChannelConfig after_date folder_pfx ch)).success then
            (run_download get_api_key dl resolve
              (schedChannelConfig after_date folder_pfx ch)).total_downloads
          else 0),
         acc.2 ++ [schedChannelConfig after_date folder_pfx ch])
      constructor
      · simp only [schedChannelLoop]
        rw [h1]
        simp [List.append_assoc]
      · simp only [schedChannelLoop]
        omega

/-- Claim C1, counterexample: a two-channel job where the first channel's
resolution raises inside `run_download`; contrary to the claim, the second
channel is still processed in the same invocation (both channels appear in
the trace, and the second channel's two downloads are counted), and the
job ends with status `completed` and `last_error = None`, not `failed`. -/
theorem claim_C1_counterexample :
    ((_run_scheduled_download "k" (fun _ => (true, "url"))
        (fun cfg => if cfg.channel = "A" then
            Except.error "No channel found for query: A"
          else Except.ok [{ id := "v1", title := "t1", channel := "B" },
                          { id := "v2", title := "t2", channel := "B" }])
        "2024-02-02T00:00:00"
        { name := "J", channels := ["A", "B"], frequency := "daily",
          start_date := "2024-01-01", folder_pfx := "", last_run := none,
          status := "active", total_downloads := 0,
          last_error := none }).1.status = "completed") ∧
    ((_run_scheduled_download "k" (fun _ => (true, "url"))
        (fun cfg => if cfg.channel = "A" then
            Except.error "No channel found for query: A"
          else Except.ok [{ id := "v1", title := "t1", channel := "B" },
                          { id := "v2", title := "t2", channel := "B" }])
        "2024-02-02T00:00:00"
        { name := "J", channels := ["A", "B"], frequency := "daily",
          start_date := "2024-01-01", folder_pfx := "", last_run := none,
          status := "active", total_downloads := 0,
          last_error := none }).1.last_error = none) ∧
    ((_run_scheduled_download "k" (fun _ => (true, "url"))
        (fun cfg => if cfg.channel = "A" then
            Except.error "No channel found for query: A"
          else Except.ok [{ id := "v1", title := "t1", channel := "B" },
                          { id := "v2", title := "t2", channel := "B" }])
        "2024-02-02T00:00:00"
        { name := "J", channels := ["A", "B"], frequency := "daily",
          start_date := "2024-01-01", folder_pfx := "", last_run := none,
          status := "active", total_downloads := 0,
          last_error := none }).2.map (fun c => c.channel) = ["A", "B"]) ∧
    ((_run_scheduled_download "k" (fun _ => (true, "url"))
        (fun cfg => if cfg.channel = "A" then
            Except.error "No channel found for query: A"
          else Except.ok [{ id := "v1", title := "t1", channel := "B" },
                          { id := "v2", title := "t2", channel := "B" }])
        "2024-02-02T00:00:00"
        { name := "J", channels := ["A", "B"], frequency := "daily",
          start_date := "2024-01-01", folder_pfx := "", last_run := none,
          status := "active", total_downloads := 0,
          last_error := none }).1.total_downloads = 2) := by
  decide

/-- Claim C1 (amended): a failure of one channel's resolution is absorbed
inside `run_download` (which returns an unsuccessful result dictionary
instead of raising), so the scheduler's trigger invocation still processes
every channel of the job in order; the job's status is set to `completed`
— never `failed` — with `last_error` cleared and `last_run` stamped, and
the running download total only ever grows (failed channels simply
contribute nothing). -/
theorem claim_C1_amended_no_abort (get_api_key : String)
    (dl : Video → Bool × String)
    (resolve : RunConfig → Except String (List Video)) (now : String)
    (job : SchedJob) :
    (_run_scheduled_download get_api_key dl resolve now job).1.status =
      "completed" ∧
    (_run_scheduled_download get_api_key dl resolve now job).1.last_error =
      none ∧
    (_run_scheduled_download get_api_key dl resolve now job).1.last_run =
      some now ∧
    (_run_scheduled_download get_api_key dl resolve now job).2.map
        (fun c => c.channel) = job.channels ∧
    job.total_downloads ≤
      (_run_scheduled_download get_api_key dl resolve now
        job).1.total_downloads := by
  obtain ⟨h1, h2⟩ := schedChannelLoop_trace get_api_key dl resolve
    (match job.last_run with
     | some d => isoDate d
     | none => job.start_date) job.folder_pfx job.channels (0, [])
  refine ⟨rfl, rfl, rfl, ?_, ?_⟩
  · show (schedChannelLoop get_api_key dl resolve _ job.folder_pfx
        job.channels (0, [])).2.map (fun c => c.channel) = job.channels
    rw [h1]
    simp only [List.nil_append, List.map_map]
    have hfun : ((fun c : RunConfig => c.channel) ∘
        schedChannelConfig
          (match job.last_run with
           | some d => isoDate d
           | none => job.start_date) job.folder_pfx) = id := by
      funext ch
      rfl
    rw [hfun, List.map_id]
  · show job.total_downloads ≤ job.total_downloads +
      (schedChannelLoop get_api_key dl resolve _ job.folder_pfx
        job.channels (0, [])).1
    omega

end YT
